import Mathlib

/-!
Verification of the Psy2Bib mobile client's zero-knowledge cryptographic core.

The development shallowly embeds the client code: the Argon2id / SHA-256 /
AES-256-GCM / base64 / UTF-8 / JSON primitives supplied by the `@noble` and
`buffer` libraries are abstracted into a `Crypto` record together with a
`CryptoSpec` record of the properties those libraries guarantee (round trips,
authentication failure on a wrong key with overwhelming probability —
idealised here as certainty, injectivity of encodings).  Every function of the
repository itself (`derivePasswordHash`, `deriveAesKey`, `encryptGCM`,
`decryptGCM`, `buildPatientZkPayload`, `parseEncryptedJson`,
`decryptPatientVault`, `decryptProfileWithMasterKey`, the chat conversation
key derivation, `decryptMessage` and `decryptPreview`) is translated
statement by statement.  Randomness (`Crypto.getRandomBytes`) is passed as an
explicit argument, and JavaScript `throw` is modelled with `Except`.

A fully executable instantiation `toyCrypto` of the primitive layer is
provided and proved to satisfy `CryptoSpec`, so that every theorem can be
evaluated on concrete inputs.
-/

/-- Byte strings: the embedding of JavaScript `Uint8Array`. -/
abbrev Bytes := List (Fin 256)

/-- The `{ iv, data }` wire shape of an encrypted blob (base64 strings). -/
structure Envelope where
  iv : String
  data : String
deriving DecidableEq

/-- Options passed to the `argon2id` primitive: `{ m, t, p, dkLen }`. -/
structure Argon2Options where
  m : Nat
  t : Nat
  p : Nat
  dkLen : Nat
deriving DecidableEq

/-- A named Argon2id cost profile as declared in the source
(`{ m, t, p }`; `dkLen` is spread in at each call site). -/
structure ArgonCost where
  m : Nat
  t : Nat
  p : Nat
deriving DecidableEq

/-- Attachment metadata as read back by the chat screen
(`JSON.parse` of the decrypted body; only `filename` is consumed). -/
structure AttachMeta where
  filename : Option String

/-- The primitive layer: operations imported by the source from
`@noble/hashes`, `@noble/ciphers`, `expo-crypto` and `buffer`, plus the
`JSON.stringify` / `JSON.parse` pairs the source applies to envelopes and to
the profile document.  `Doc` is the type of JSON-serialisable profile
documents.  `gcmDecrypt` returns `none` where the library call throws. -/
structure Crypto (Doc : Type) where
  sha256 : Bytes → Bytes
  argon2id : Bytes → Bytes → Argon2Options → Bytes
  gcmEncrypt : Bytes → Bytes → Bytes → Bytes
  gcmDecrypt : Bytes → Bytes → Bytes → Option Bytes
  toBase64 : Bytes → String
  fromBase64 : String → Bytes
  utf8ToBytes : String → Bytes
  utf8Decode : Bytes → String
  stringifyEnv : Envelope → String
  jsonParseEnv : String → Option Envelope
  docToBytes : Doc → Bytes
  bytesToDoc : Bytes → Option Doc
  jsonParseMeta : String → Option AttachMeta

/-- Contract of the primitive layer: what the imported libraries guarantee.
Authentication failure of AES-GCM under a wrong key, and collision freeness
of Argon2id in its password argument, hold with overwhelming probability for
the real primitives and are idealised here as certain. -/
structure CryptoSpec {Doc : Type} (C : Crypto Doc) : Prop where
  fromBase64_toBase64 : ∀ bs : Bytes, C.fromBase64 (C.toBase64 bs) = bs
  toBase64_ne_empty : ∀ bs : Bytes, bs ≠ [] → C.toBase64 bs ≠ ""
  utf8_inj : Function.Injective C.utf8ToBytes
  argon_inj : ∀ salt opts, Function.Injective (fun pwd => C.argon2id pwd salt opts)
  gcm_roundtrip : ∀ k iv p, C.gcmDecrypt k iv (C.gcmEncrypt k iv p) = some p
  gcm_wrong_key : ∀ k kBad iv ivd p, k ≠ kBad →
    C.gcmDecrypt kBad ivd (C.gcmEncrypt k iv p) = none
  gcm_ct_ne_empty : ∀ k iv p, C.gcmEncrypt k iv p ≠ []
  env_roundtrip : ∀ e, C.jsonParseEnv (C.stringifyEnv e) = some e
  env_ne_empty : ∀ e, C.stringifyEnv e ≠ ""
  doc_roundtrip : ∀ d, C.bytesToDoc (C.docToBytes d) = some d

/-- `toBase64` is injective: it has `fromBase64` as a left inverse. -/
theorem CryptoSpec.toBase64_inj {Doc : Type} {C : Crypto Doc} (hC : CryptoSpec C) :
    Function.Injective C.toBase64 := by
  intro a b h
  have ha := hC.fromBase64_toBase64 a
  have hb := hC.fromBase64_toBase64 b
  rw [← ha, ← hb, h]

/-- JavaScript `String.prototype.trim`: strip whitespace at both ends. -/
def jsTrim (s : String) : String :=
  let l := s.data.dropWhile Char.isWhitespace
  ⟨(l.reverse.dropWhile Char.isWhitespace).reverse⟩

/-- JavaScript `String.prototype.toLowerCase` (per-character lowering; the
identifiers in play are ASCII, where this agrees with JavaScript). -/
def jsToLowerCase (s : String) : String := ⟨s.data.map Char.toLower⟩

/-- JavaScript `a || b` on strings (the only falsy string is `""`). -/
def jsOr (a b : String) : String := if a = "" then b else a

/-- Truthiness test for an optional string: `undefined`, `null` and `""` are
the falsy cases, so `!x` holds exactly when `getD "" = ""`. -/
def jsFalsy (s : Option String) : Bool := (s.getD "") == ""

/-- `KEY_LEN = 32` — symmetric key length in bytes. -/
def KEY_LEN : Nat := 32

/-- `ARGON_PASSWORD_HASH = { m: 4 * 1024, t: 1, p: 1 }` — the Argon2id cost
profile used for the server-submitted authentication hash. -/
def ARGON_PASSWORD_HASH : ArgonCost := ⟨4 * 1024, 1, 1⟩

/-- `ARGON_AES_KEY = { m: 4 * 1024, t: 1, p: 1 }` — the Argon2id cost profile
used to derive the vault-wrapping AES key. -/
def ARGON_AES_KEY : ArgonCost := ⟨4 * 1024, 1, 1⟩

/-- `derivePasswordHash(email, password)`: normalise the email
(`trim` then `toLowerCase`), build the deterministic salt
`sha256("psy2bib:" + normEmail)`, run Argon2id with the
`ARGON_PASSWORD_HASH` profile and return the hash in base64. -/
def derivePasswordHash {Doc : Type} (C : Crypto Doc) (email password : String) : String :=
  let normEmail := jsToLowerCase (jsTrim email)
  let salt := C.sha256 (C.utf8ToBytes ("psy2bib:" ++ normEmail))
  let hash := C.argon2id (C.utf8ToBytes password) salt
    ⟨ARGON_PASSWORD_HASH.m, ARGON_PASSWORD_HASH.t, ARGON_PASSWORD_HASH.p, KEY_LEN⟩
  C.toBase64 hash

/-- `deriveAesKey(password, saltB64)`: Argon2id with the random, persisted
salt and the `ARGON_AES_KEY` profile. -/
def deriveAesKey {Doc : Type} (C : Crypto Doc) (password saltB64 : String) : Bytes :=
  C.argon2id (C.utf8ToBytes password) (C.fromBase64 saltB64)
    ⟨ARGON_AES_KEY.m, ARGON_AES_KEY.t, ARGON_AES_KEY.p, KEY_LEN⟩

/-- Result of `encryptGCM`: `{ iv, ciphertext }`, both base64. -/
structure GCMResult where
  iv : String
  ciphertext : String
deriving DecidableEq

/-- `encryptGCM(key, plaintext)`.  The source draws a fresh random 12-byte IV
from `Crypto.getRandomBytes(12)`; that randomness is the explicit `ivRandom`
argument here. -/
def encryptGCM {Doc : Type} (C : Crypto Doc) (key plaintext ivRandom : Bytes) : GCMResult :=
  ⟨C.toBase64 ivRandom, C.toBase64 (C.gcmEncrypt key ivRandom plaintext)⟩

/-- `decryptGCM(key, ivB64, ciphertextB64)`; `none` models the throw on an
AEAD authentication failure. -/
def decryptGCM {Doc : Type} (C : Crypto Doc) (key : Bytes) (ivB64 ciphertextB64 : String) :
    Option Bytes :=
  C.gcmDecrypt key (C.fromBase64 ivB64) (C.fromBase64 ciphertextB64)

/-- The value returned by `buildPatientZkPayload`: the three server-side vault
fields plus the local-only plain master key. -/
structure ZkBuildResult where
  salt : String
  encryptedMasterKey : String
  encryptedProfile : String
  masterKeyB64 : String
deriving DecidableEq

/-- `buildPatientZkPayload(password, profile)`.  The three random draws of the
source (`getRandomBytes(16)` salt, `getRandomBytes(32)` master key, and the
IVs drawn inside the two `encryptGCM` calls) are explicit arguments. -/
def buildPatientZkPayload {Doc : Type} (C : Crypto Doc) (password : String) (profile : Doc)
    (saltRandom masterKeyRandom ivMaster ivProfile : Bytes) : ZkBuildResult :=
  let salt := C.toBase64 saltRandom
  let aesKey := deriveAesKey C password salt
  let masterKey := masterKeyRandom
  let masterEnc := encryptGCM C aesKey masterKey ivMaster
  let profileBytes := C.docToBytes profile
  let profileEnc := encryptGCM C masterKey profileBytes ivProfile
  ⟨salt,
    C.stringifyEnv ⟨masterEnc.iv, masterEnc.ciphertext⟩,
    C.stringifyEnv ⟨profileEnc.iv, profileEnc.ciphertext⟩,
    C.toBase64 masterKey⟩

/-- `parseEncryptedJson(value)`: `null` on a falsy input, on a JSON parse
failure, or when the parsed object lacks a truthy `iv` or `data` field. -/
def parseEncryptedJson {Doc : Type} (C : Crypto Doc) (value : Option String) :
    Option Envelope :=
  if jsFalsy value then none
  else
    match C.jsonParseEnv (value.getD "") with
    | none => none
    | some parsed => if parsed.iv = "" ∨ parsed.data = "" then none else some parsed

/-- The vault triple as received from the backend (each field nullable). -/
structure VaultPayload where
  salt : Option String
  encryptedMasterKey : Option String
  encryptedProfile : Option String

/-- The errors `decryptPatientVault` / `decryptProfileWithMasterKey` can
throw: the incomplete-vault guard, the master-key envelope parse guard, and a
throw escaping from `decryptGCM`. -/
inductive VaultError where
  | incompleteVault
  | invalidMasterKeyEnvelope
  | authFailure
deriving DecidableEq

instance {eps alpha : Type} [DecidableEq eps] [DecidableEq alpha] :
    DecidableEq (Except eps alpha) :=
  fun a b =>
  match a, b with
  | .ok x, .ok y =>
    if h : x = y then isTrue (by rw [h]) else isFalse (by intro hh; cases hh; exact h rfl)
  | .ok _, .error _ => isFalse (by intro h; cases h)
  | .error _, .ok _ => isFalse (by intro h; cases h)
  | .error x, .error y =>
    if h : x = y then isTrue (by rw [h]) else isFalse (by intro hh; cases hh; exact h rfl)

/-- `decryptPatientVault(password, payload)`.  Throws when `salt` or
`encryptedMasterKey` is falsy, when the master-key envelope does not parse,
or when either `decryptGCM` call fails authentication (the `try`/`catch` of
the source wraps only the `JSON.parse` of the decrypted profile, not the
profile `decryptGCM` call).  A profile envelope that is falsy, unparseable or
whose decrypted bytes are not valid JSON leaves `profile = null`. -/
def decryptPatientVault {Doc : Type} (C : Crypto Doc) (password : String)
    (payload : VaultPayload) : Except VaultError (String × Option Doc) :=
  if jsFalsy payload.salt || jsFalsy payload.encryptedMasterKey then
    .error .incompleteVault
  else
    match parseEncryptedJson C payload.encryptedMasterKey with
    | none => .error .invalidMasterKeyEnvelope
    | some encMaster =>
      let aesKey := deriveAesKey C password (payload.salt.getD "")
      match decryptGCM C aesKey encMaster.iv encMaster.data with
      | none => .error .authFailure
      | some masterKey =>
        let masterKeyB64 := C.toBase64 masterKey
        if jsFalsy payload.encryptedProfile then .ok (masterKeyB64, none)
        else
          match parseEncryptedJson C payload.encryptedProfile with
          | none => .ok (masterKeyB64, none)
          | some encProfile =>
            match decryptGCM C masterKey encProfile.iv encProfile.data with
            | none => .error .authFailure
            | some plaintext => .ok (masterKeyB64, C.bytesToDoc plaintext)

/-- `decryptProfileWithMasterKey(masterKeyB64, encryptedProfile)`: `null` on a
falsy or unparseable envelope, before any AEAD work; a throw escaping from
`decryptGCM` propagates (it is not caught — only the final `JSON.parse` is). -/
def decryptProfileWithMasterKey {Doc : Type} (C : Crypto Doc) (masterKeyB64 : String)
    (encryptedProfile : Option String) : Except VaultError (Option Doc) :=
  if jsFalsy encryptedProfile then .ok none
  else
    match parseEncryptedJson C encryptedProfile with
    | none => .ok none
    | some enc =>
      let masterKey := C.fromBase64 masterKeyB64
      match decryptGCM C masterKey enc.iv enc.data with
      | none => .error .authFailure
      | some plaintext => .ok (C.bytesToDoc plaintext)

/-- Lexicographic comparison of strings by code point, the order used by the
default comparator of JavaScript `Array.prototype.sort` on the identifier
strings in play. -/
def lexLe : List Char → List Char → Bool
  | [], _ => true
  | _ :: _, [] => false
  | a :: as, b :: bs =>
    if a.toNat < b.toNat then true
    else if b.toNat < a.toNat then false
    else lexLe as bs

/-- `[a, b].sort()` for a two-element string array. -/
def jsSortPair (a b : String) : String × String :=
  if lexLe a.data b.data then (a, b) else (b, a)

/-- The key material string
`` `psy2bib-chat:${[a, b].sort().join(':')}` `` shared by
`ChatConversationScreen.conversationKey` and `decryptPreview`. -/
def conversationMaterial (a b : String) : String :=
  let p := jsSortPair a b
  "psy2bib-chat:" ++ p.1 ++ ":" ++ p.2

/-- The deterministic conversation key:
`argon2id(material, sha256('psy2bib-chat-salt'), { m: 1024, t: 1, p: 1, dkLen: 32 })`. -/
def deriveConversationKey {Doc : Type} (C : Crypto Doc) (a b : String) : Bytes :=
  C.argon2id (C.utf8ToBytes (conversationMaterial a b))
    (C.sha256 (C.utf8ToBytes "psy2bib-chat-salt")) ⟨1024, 1, 1, 32⟩

/-- The `conversationKey` memo of `ChatConversationScreen`:
`null` unless both `user?.id` and `peerIdParam ?? resolvedPeerId` are truthy. -/
def conversationKeyMemo {Doc : Type} (C : Crypto Doc)
    (userId peerIdParam resolvedPeerId : Option String) : Option Bytes :=
  let peerId := peerIdParam.orElse fun _ => resolvedPeerId
  if jsFalsy userId || jsFalsy peerId then none
  else some (deriveConversationKey C (userId.getD "") (peerId.getD ""))

/-- A chat message as rendered by `ChatConversationScreen`. -/
structure ChatMessage where
  encryptedContent : String
  iv : String
  attachmentPath : Option String

/-- `decryptMessage(msg)` of `ChatConversationScreen`: raw content when no
conversation key is available; the fixed placeholder
`'Message illisible (erreur déchiffrement)'` when decryption throws; for
attachment messages, a caption built from the decrypted JSON metadata. -/
def decryptMessage {Doc : Type} (C : Crypto Doc) (conversationKey : Option Bytes)
    (msg : ChatMessage) : String :=
  match conversationKey with
  | none => msg.encryptedContent
  | some key =>
    match decryptGCM C key msg.iv msg.encryptedContent with
    | none => "Message illisible (erreur déchiffrement)"
    | some plain =>
      let text := C.utf8Decode plain
      if jsFalsy msg.attachmentPath then text
      else
        match C.jsonParseMeta text with
        | some meta => "📎 Fichier : " ++ jsOr (meta.filename.getD "") "Document"
        | none => "📎 Fichier chiffré"

/-- `thread.lastMessage` as consumed by `decryptPreview`. -/
structure ThreadMessage where
  iv : String
  encryptedContent : String

/-- A chat thread as consumed by `decryptPreview` (`peerId` stands for
`thread.peer?.id`). -/
structure ChatThread where
  peerId : Option String
  lastMessage : Option ThreadMessage

/-- `decryptPreview(thread)` of `MessagesListScreen`: when the guard fails or
decryption throws, it falls back to `thread.lastMessage?.encryptedContent || ''`
— the raw ciphertext, not a placeholder. -/
def decryptPreview {Doc : Type} (C : Crypto Doc) (userId : Option String)
    (thread : ChatThread) : String :=
  match thread.lastMessage with
  | none => ""
  | some lm =>
    if jsFalsy userId || jsFalsy thread.peerId then jsOr lm.encryptedContent ""
    else
      let key := deriveConversationKey C (userId.getD "") (thread.peerId.getD "")
      match C.gcmDecrypt key (C.fromBase64 lm.iv) (C.fromBase64 lm.encryptedContent) with
      | none => jsOr lm.encryptedContent ""
      | some plain => C.utf8Decode plain

/-! Executable instantiation of the primitive layer.  The toy primitives are
not the real SHA-256 / Argon2id / AES-GCM, but they satisfy every clause of
`CryptoSpec`, which is all the theorems below rely on; they make each theorem
evaluable on concrete inputs. -/

/-- The character with code point `b` (every byte is a valid code point). -/
def mkChar (b : Fin 256) : Char :=
  ⟨⟨⟨b.val, by omega⟩⟩, Or.inl (Nat.lt_of_lt_of_le b.isLt (by omega))⟩

/-- Inverse of `mkChar` on its image. -/
def byteOfChar (c : Char) : Fin 256 := ⟨c.toNat % 256, Nat.mod_lt _ (by omega)⟩

theorem byteOfChar_mkChar (b : Fin 256) : byteOfChar (mkChar b) = b := by
  unfold byteOfChar
  apply Fin.ext
  show (mkChar b).toNat % 256 = b.val
  have h1 : (mkChar b).toNat = b.val := rfl
  rw [h1, Nat.mod_eq_of_lt b.isLt]

theorem map_byteOfChar_mkChar (bs : Bytes) : (bs.map mkChar).map byteOfChar = bs := by
  induction bs with
  | nil => rfl
  | cons b t ih => simp only [List.map_cons, byteOfChar_mkChar, ih]

theorem charToNat_inj : Function.Injective Char.toNat := by
  intro a b h
  cases a; cases b
  simp only [Char.toNat] at h
  congr 1
  exact UInt32.toNat.inj h

/-- Big-endian 4-byte encoding of a code point (toy stand-in for UTF-8). -/
def encode4 (c : Char) : Bytes :=
  [⟨c.toNat / 16777216 % 256, Nat.mod_lt _ (by omega)⟩,
   ⟨c.toNat / 65536 % 256, Nat.mod_lt _ (by omega)⟩,
   ⟨c.toNat / 256 % 256, Nat.mod_lt _ (by omega)⟩,
   ⟨c.toNat % 256, Nat.mod_lt _ (by omega)⟩]

def encodeChars : List Char → Bytes
  | [] => []
  | c :: cs => encode4 c ++ encodeChars cs

def decode4 : Bytes → List Nat
  | a :: b :: c :: d :: rest =>
    (a.val * 16777216 + b.val * 65536 + c.val * 256 + d.val) :: decode4 rest
  | _ => []

theorem decode4_encodeChars (l : List Char) :
    decode4 (encodeChars l) = l.map Char.toNat := by
  induction l with
  | nil => rfl
  | cons c cs ih =>
    have hc : c.toNat < 4294967296 := c.val.toNat_lt
    show decode4 (encode4 c ++ encodeChars cs) = c.toNat :: cs.map Char.toNat
    simp only [encode4, List.cons_append, List.nil_append, decode4, ih]
    congr 1
    omega

theorem encodeChars_inj : Function.Injective (fun s : String => encodeChars s.data) := by
  intro s1 s2 h
  have h2 := congrArg decode4 h
  rw [decode4_encodeChars, decode4_encodeChars] at h2
  have h3 : s1.data = s2.data := List.map_injective_iff.mpr charToNat_inj h2
  cases s1 with
  | mk d1 =>
    cases s2 with
    | mk d2 => exact congrArg String.mk h3

/-- Self-delimiting key tag written at the head of a toy ciphertext:
`0 b` pairs for each key byte, then a `1` terminator. -/
def tagOf : Bytes → Bytes
  | [] => [1]
  | b :: k => 0 :: b :: tagOf k

theorem eq_of_tagOf_start :
    ∀ (kBad k p : Bytes), tagOf kBad <+: tagOf k ++ p → kBad = k := by
  intro kBad
  induction kBad with
  | nil =>
    intro k p h
    cases k with
    | nil => rfl
    | cons b k2 =>
      rw [show tagOf [] = [(1 : Fin 256)] from rfl,
        show tagOf (b :: k2) = 0 :: b :: tagOf k2 from rfl] at h
      rw [List.cons_append, List.cons_prefix_cons] at h
      exact absurd h.1 (by decide)
  | cons a kB ih =>
    intro k p h
    cases k with
    | nil =>
      rw [show tagOf (a :: kB) = 0 :: a :: tagOf kB from rfl,
        show tagOf [] = [(1 : Fin 256)] from rfl] at h
      rw [List.cons_append, List.nil_append, List.cons_prefix_cons] at h
      exact absurd h.1 (by decide)
    | cons b k2 =>
      rw [show tagOf (a :: kB) = 0 :: a :: tagOf kB from rfl,
        show tagOf (b :: k2) = 0 :: b :: tagOf k2 from rfl] at h
      rw [List.cons_append, List.cons_append, List.cons_prefix_cons,
        List.cons_prefix_cons] at h
      rw [h.2.1, ih k2 p h.2.2]

theorem tagOf_append_ne_nil (k p : Bytes) : tagOf k ++ p ≠ [] := by
  cases k <;> simp [tagOf]

/-- Toy envelope serialisation: unary length of `iv` in `*`s, a `|` marker,
then the two fields. -/
def stringifyEnvToy (e : Envelope) : String :=
  ⟨List.replicate e.iv.data.length '*' ++ '|' :: (e.iv.data ++ e.data.data)⟩

def jsonParseEnvToy (s : String) : Option Envelope :=
  let stars := (s.data.takeWhile (· == '*')).length
  match s.data.drop stars with
  | '|' :: rest => some ⟨⟨rest.take stars⟩, ⟨rest.drop stars⟩⟩
  | _ => none

theorem takeWhile_star_marker (n : Nat) (l : List Char) :
    (List.replicate n '*' ++ '|' :: l).takeWhile (· == '*') = List.replicate n '*' := by
  induction n with
  | zero => simp [List.takeWhile]
  | succ k ih => simp [List.replicate_succ, List.takeWhile, ih]

theorem jsonParseEnvToy_stringifyEnvToy (e : Envelope) :
    jsonParseEnvToy (stringifyEnvToy e) = some e := by
  unfold jsonParseEnvToy stringifyEnvToy
  have hdrop := List.drop_left (List.replicate e.iv.data.length '*')
    ('|' :: (e.iv.data ++ e.data.data))
  rw [List.length_replicate] at hdrop
  have htake : (e.iv.data ++ e.data.data).take e.iv.data.length = e.iv.data :=
    List.take_left _ _
  have hdrop2 : (e.iv.data ++ e.data.data).drop e.iv.data.length = e.data.data :=
    List.drop_left _ _
  simp only [takeWhile_star_marker, List.length_replicate, hdrop, htake, hdrop2]

/-- The executable instantiation of the primitive layer over `Doc := Nat`. -/
def toyCrypto : Crypto Nat where
  sha256 := fun bs => bs
  argon2id := fun pwd salt _ => pwd ++ salt
  gcmEncrypt := fun k _ p => tagOf k ++ p
  gcmDecrypt := fun k _ c => if tagOf k <+: c then some (c.drop (tagOf k).length) else none
  toBase64 := fun bs => ⟨bs.map mkChar⟩
  fromBase64 := fun s => s.data.map byteOfChar
  utf8ToBytes := fun s => encodeChars s.data
  utf8Decode := fun _ => ""
  stringifyEnv := stringifyEnvToy
  jsonParseEnv := jsonParseEnvToy
  docToBytes := fun n => List.replicate n 0
  bytesToDoc := fun bs => some bs.length
  jsonParseMeta := fun _ => none

theorem toyCryptoSpec : CryptoSpec toyCrypto := by
  constructor
  case fromBase64_toBase64 =>
    intro bs
    exact map_byteOfChar_mkChar bs
  case toBase64_ne_empty =>
    intro bs hbs h
    cases bs with
    | nil => exact hbs rfl
    | cons b t => exact absurd (congrArg String.data h) (by simp [toyCrypto])
  case utf8_inj => exact encodeChars_inj
  case argon_inj =>
    intro salt opts p1 p2 h
    exact List.append_cancel_right h
  case gcm_roundtrip =>
    intro k iv p
    show (if tagOf k <+: tagOf k ++ p then some ((tagOf k ++ p).drop (tagOf k).length)
      else none) = some p
    rw [if_pos (List.prefix_append _ _), List.drop_left]
  case gcm_wrong_key =>
    intro k kBad iv ivd p hne
    show (if tagOf kBad <+: tagOf k ++ p then _ else none) = none
    rw [if_neg]
    intro hpre
    exact hne (eq_of_tagOf_start kBad k p hpre).symm
  case gcm_ct_ne_empty =>
    intro k iv p
    exact tagOf_append_ne_nil k p
  case env_roundtrip => exact jsonParseEnvToy_stringifyEnvToy
  case env_ne_empty =>
    intro e h
    exact absurd (congrArg String.data h) (by simp [toyCrypto, stringifyEnvToy])
  case doc_roundtrip =>
    intro d
    show some (List.replicate d (0 : Fin 256)).length = some d
    rw [List.length_replicate]

theorem lexLe_total : ∀ l1 l2 : List Char, lexLe l1 l2 = true ∨ lexLe l2 l1 = true := by
  intro l1
  induction l1 with
  | nil => intro l2; exact Or.inl rfl
  | cons a as ih =>
    intro l2
    cases l2 with
    | nil => exact Or.inr rfl
    | cons b bs =>
      by_cases hab : a.toNat < b.toNat
      · exact Or.inl (by simp [lexLe, hab])
      · by_cases hba : b.toNat < a.toNat
        · exact Or.inr (by simp [lexLe, hba])
        · rcases ih bs with h | h
          · exact Or.inl (by simp [lexLe, hab, hba, h])
          · exact Or.inr (by simp [lexLe, hab, hba, h])

theorem lexLe_antisymm : ∀ l1 l2 : List Char,
    lexLe l1 l2 = true → lexLe l2 l1 = true → l1 = l2 := by
  intro l1
  induction l1 with
  | nil =>
    intro l2 _ h2
    cases l2 with
    | nil => rfl
    | cons b bs => exact absurd h2 (by simp [lexLe])
  | cons a as ih =>
    intro l2 h1 h2
    cases l2 with
    | nil => exact absurd h1 (by simp [lexLe])
    | cons b bs =>
      by_cases hab : a.toNat < b.toNat
      · exact absurd h2 (by simp [lexLe, Nat.lt_asymm hab, Nat.ne_of_gt hab, hab])
      · by_cases hba : b.toNat < a.toNat
        · exact absurd h1 (by simp [lexLe, hab, hba])
        · have hEq : a = b := charToNat_inj (Nat.le_antisymm (Nat.le_of_not_lt hba) (Nat.le_of_not_lt hab))
          simp only [lexLe, hab, hba, if_neg, if_false] at h1 h2
          rw [hEq, ih bs h1 h2]

theorem jsSortPair_comm (a b : String) : jsSortPair a b = jsSortPair b a := by
  unfold jsSortPair
  by_cases h1 : lexLe a.data b.data = true
  · by_cases h2 : lexLe b.data a.data = true
    · have : a = b := by
        have hd := lexLe_antisymm a.data b.data h1 h2
        cases a with
        | mk d1 =>
          cases b with
          | mk d2 => exact congrArg String.mk hd
      rw [this]
    · simp [h1, h2]
  · have h2 : lexLe b.data a.data = true := (lexLe_total a.data b.data).resolve_left h1
    simp [h1, h2]

theorem jsSortPair_cancel (a b c : String) (h : jsSortPair a b = jsSortPair a c) : b = c := by
  unfold jsSortPair at h
  by_cases h1 : lexLe a.data b.data = true <;> by_cases h2 : lexLe a.data c.data = true
  · rw [if_pos h1, if_pos h2] at h
    exact congrArg Prod.snd h
  · rw [if_pos h1, if_neg h2] at h
    exact (congrArg Prod.snd h).trans (congrArg Prod.fst h)
  · rw [if_neg h1, if_pos h2] at h
    exact (congrArg Prod.fst h).trans (congrArg Prod.snd h)
  · rw [if_neg h1, if_neg h2] at h
    exact congrArg Prod.fst h

/-- Components of `jsSortPair a b` are drawn from `{a, b}`. -/
theorem jsSortPair_mem (a b : String) :
    ((jsSortPair a b).1 = a ∧ (jsSortPair a b).2 = b) ∨
      ((jsSortPair a b).1 = b ∧ (jsSortPair a b).2 = a) := by
  unfold jsSortPair
  by_cases h : lexLe a.data b.data = true
  · exact Or.inl (by simp [h])
  · exact Or.inr (by simp [h])

/-- A `':'`-join of two colon-free lists determines its parts. -/
theorem colon_join_inj : ∀ x1 x2 y1 y2 : List Char, (':' ∉ x1) → (':' ∉ x2) →
    x1 ++ ':' :: y1 = x2 ++ ':' :: y2 → x1 = x2 ∧ y1 = y2 := by
  intro x1
  induction x1 with
  | nil =>
    intro x2 y1 y2 _ hx2 h
    cases x2 with
    | nil => exact ⟨rfl, by simpa using h⟩
    | cons c t =>
      rw [List.nil_append, List.cons_append, List.cons.injEq] at h
      exact absurd (h.1 ▸ List.mem_cons_self c t) hx2
  | cons c t ih =>
    intro x2 y1 y2 hx1 hx2 h
    cases x2 with
    | nil =>
      rw [List.cons_append, List.nil_append, List.cons.injEq] at h
      exact absurd (h.1 ▸ List.mem_cons_self c t) hx1
    | cons d u =>
      rw [List.cons_append, List.cons_append, List.cons.injEq] at h
      have ht := ih u y1 y2 (fun hm => hx1 (List.mem_cons_of_mem c hm))
        (fun hm => hx2 (List.mem_cons_of_mem d hm)) h.2
      exact ⟨by rw [h.1, ht.1], ht.2⟩

theorem string_eq_of_data (a b : String) (h : a.data = b.data) : a = b := by
  cases a with
  | mk d1 =>
    cases b with
    | mk d2 => exact congrArg String.mk h

/-- `conversationMaterial` is symmetric in its two identities. -/
theorem conversationMaterial_comm (a b : String) :
    conversationMaterial a b = conversationMaterial b a := by
  unfold conversationMaterial
  rw [jsSortPair_comm]

/-- `conversationMaterial` separates a fixed identity's peers, provided no
identity contains the `':'` join separator. -/
theorem conversationMaterial_inj (a b c : String)
    (ha : ':' ∉ a.data) (hb : ':' ∉ b.data) (hc : ':' ∉ c.data)
    (h : conversationMaterial a b = conversationMaterial a c) : b = c := by
  unfold conversationMaterial at h
  have hdata := congrArg String.data h
  simp only [String.data_append, List.append_assoc] at hdata
  have hcancel := List.append_cancel_left hdata
  rw [List.singleton_append, List.singleton_append] at hcancel
  have h1cf : ':' ∉ (jsSortPair a b).1.data := by
    rcases jsSortPair_mem a b with ⟨h1, -⟩ | ⟨h1, -⟩ <;> rw [h1]
    · exact ha
    · exact hb
  have h2cf : ':' ∉ (jsSortPair a c).1.data := by
    rcases jsSortPair_mem a c with ⟨h1, -⟩ | ⟨h1, -⟩ <;> rw [h1]
    · exact ha
    · exact hc
  have hparts := colon_join_inj _ _ _ _ h1cf h2cf hcancel
  have hpair : jsSortPair a b = jsSortPair a c := by
    have hfst := string_eq_of_data _ _ hparts.1
    have hsnd := string_eq_of_data _ _ hparts.2
    exact Prod.ext hfst hsnd
  exact jsSortPair_cancel a b c hpair

/-- Package the three server-side fields built at registration as the payload
later handed to `decryptPatientVault`. -/
def vaultOf (z : ZkBuildResult) : VaultPayload :=
  ⟨some z.salt, some z.encryptedMasterKey, some z.encryptedProfile⟩

theorem jsFalsy_some_of_ne (s : String) (h : s ≠ "") : jsFalsy (some s) = false := by
  simp [jsFalsy, h]

/-- A freshly serialised envelope with truthy fields parses back to itself. -/
theorem parse_stringify {Doc : Type} {C : Crypto Doc} (hC : CryptoSpec C) (e : Envelope)
    (hiv : e.iv ≠ "") (hd : e.data ≠ "") :
    parseEncryptedJson C (some (C.stringifyEnv e)) = some e := by
  unfold parseEncryptedJson
  rw [jsFalsy_some_of_ne _ (hC.env_ne_empty e)]
  simp only [Bool.false_eq_true, if_false, Option.getD_some, hC.env_roundtrip]
  rw [if_neg]
  intro hor
  rcases hor with h | h
  · exact hiv h
  · exact hd h

/-- C5: AEAD round-trip — for every key `k`, plaintext `p` and value of the
internally generated random IV, `decryptGCM` applied to the `iv` and
`ciphertext` produced by `encryptGCM` under the same key recovers `p`. -/
theorem encryptGCM_decryptGCM_roundtrip (Doc : Type) (C : Crypto Doc) (hC : CryptoSpec C)
    (k p ivRandom : Bytes) :
    decryptGCM C k (encryptGCM C k p ivRandom).iv (encryptGCM C k p ivRandom).ciphertext =
      some p := by
  unfold decryptGCM encryptGCM
  simp only [hC.fromBase64_toBase64, hC.gcm_roundtrip]

/-- C5 witness. -/
theorem encryptGCM_decryptGCM_roundtrip_witness :
    CryptoSpec toyCrypto ∧
      decryptGCM toyCrypto [7, 7] (encryptGCM toyCrypto [7, 7] [1, 2, 3] [9]).iv
        (encryptGCM toyCrypto [7, 7] [1, 2, 3] [9]).ciphertext = some [1, 2, 3] :=
  ⟨toyCryptoSpec, encryptGCM_decryptGCM_roundtrip Nat toyCrypto toyCryptoSpec [7, 7] [1, 2, 3] [9]⟩

/-- C7: a vault payload whose `salt` or `encryptedMasterKey` is absent
(`null`/`undefined`/empty string) is rejected with the incomplete-vault error
and `decryptPatientVault` never returns a value. -/
theorem decryptPatientVault_incomplete (Doc : Type) (C : Crypto Doc) (password : String)
    (payload : VaultPayload)
    (h : jsFalsy payload.salt = true ∨ jsFalsy payload.encryptedMasterKey = true) :
    decryptPatientVault C password payload = .error .incompleteVault := by
  unfold decryptPatientVault
  rw [if_pos]
  rcases h with h | h <;> simp [h]

/-- C7 witness. -/
theorem decryptPatientVault_incomplete_witness :
    (jsFalsy (none : Option String) = true ∨ jsFalsy (some "x") = true) ∧
      decryptPatientVault toyCrypto "pw" ⟨none, some "x", some "y"⟩ =
        .error .incompleteVault :=
  ⟨Or.inl (by decide),
    decryptPatientVault_incomplete Nat toyCrypto "pw" ⟨none, some "x", some "y"⟩
      (Or.inl (by decide))⟩

/-- C8 counterexample: the two named Argon2id cost profiles carry identical,
not distinct, cost settings. -/
theorem argon_cost_profiles_equal : ARGON_PASSWORD_HASH = ARGON_AES_KEY := rfl

/-- C8 amended: the key-derivation service does define the two named
profiles, used by `derivePasswordHash` and `deriveAesKey` respectively, but
both are `{ m: 4096, t: 1, p: 1 }` — the same cost settings. -/
theorem argon_cost_profiles_identical :
    ARGON_PASSWORD_HASH = ⟨4 * 1024, 1, 1⟩ ∧ ARGON_AES_KEY = ⟨4 * 1024, 1, 1⟩ ∧
      ARGON_PASSWORD_HASH = ARGON_AES_KEY :=
  ⟨rfl, rfl, rfl⟩

/-- C10: `decryptProfileWithMasterKey` returns `null` without throwing on
every envelope argument rejected by `parseEncryptedJson` — absent, empty,
unparseable, or lacking a truthy `iv`/`data` field. -/
theorem decryptProfileWithMasterKey_bad_envelope (Doc : Type) (C : Crypto Doc)
    (masterKeyB64 : String) (encryptedProfile : Option String)
    (h : parseEncryptedJson C encryptedProfile = none) :
    decryptProfileWithMasterKey C masterKeyB64 encryptedProfile = .ok none := by
  unfold decryptProfileWithMasterKey
  by_cases hf : jsFalsy encryptedProfile = true
  · rw [if_pos hf]
  · rw [if_neg hf, h]

/-- C10 witness: a string that is not an envelope at all. -/
theorem decryptProfileWithMasterKey_bad_envelope_witness :
    parseEncryptedJson toyCrypto (some "garbage") = none ∧
      decryptProfileWithMasterKey toyCrypto "mk" (some "garbage") = .ok none :=
  ⟨by decide,
    decryptProfileWithMasterKey_bad_envelope Nat toyCrypto "mk" (some "garbage") (by decide)⟩

/-- C1: vault lifecycle round-trip — opening the vault built by
`buildPatientZkPayload` with the same password recovers the profile document
exactly and the same `masterKeyB64`, for every draw of the random salt,
master key and IVs (nonempty, as the 16-, 32- and 12-byte draws of the
source always are). -/
theorem decryptPatientVault_roundtrip (Doc : Type) (C : Crypto Doc) (hC : CryptoSpec C)
    (password : String) (doc : Doc) (saltR mkR iv1 iv2 : Bytes)
    (hsaltR : saltR ≠ []) (hiv1 : iv1 ≠ []) (hiv2 : iv2 ≠ []) :
    decryptPatientVault C password
        (vaultOf (buildPatientZkPayload C password doc saltR mkR iv1 iv2)) =
      .ok ((buildPatientZkPayload C password doc saltR mkR iv1 iv2).masterKeyB64, some doc) := by
  have hsalts : C.toBase64 saltR ≠ "" := hC.toBase64_ne_empty _ hsaltR
  have hiv1s : C.toBase64 iv1 ≠ "" := hC.toBase64_ne_empty _ hiv1
  have hiv2s : C.toBase64 iv2 ≠ "" := hC.toBase64_ne_empty _ hiv2
  have hct1 : C.toBase64 (C.gcmEncrypt (deriveAesKey C password (C.toBase64 saltR)) iv1 mkR)
      ≠ "" := hC.toBase64_ne_empty _ (hC.gcm_ct_ne_empty _ _ _)
  have hct2 : C.toBase64 (C.gcmEncrypt mkR iv2 (C.docToBytes doc)) ≠ "" :=
    hC.toBase64_ne_empty _ (hC.gcm_ct_ne_empty _ _ _)
  simp only [buildPatientZkPayload, encryptGCM, vaultOf, decryptPatientVault, decryptGCM,
    jsFalsy_some_of_ne _ hsalts, jsFalsy_some_of_ne _ (hC.env_ne_empty _),
    Bool.or_self, Bool.false_eq_true, if_false, Option.getD_some,
    parse_stringify hC, hiv1s, hiv2s, hct1, hct2,
    hC.fromBase64_toBase64, hC.gcm_roundtrip, hC.doc_roundtrip,
    ne_eq, not_false_iff]

/-- C1 witness. -/
theorem decryptPatientVault_roundtrip_witness :
    CryptoSpec toyCrypto ∧ ([0] : Bytes) ≠ [] ∧ ([2] : Bytes) ≠ [] ∧ ([3] : Bytes) ≠ [] ∧
      decryptPatientVault toyCrypto "pw"
          (vaultOf (buildPatientZkPayload toyCrypto "pw" 5 [0] [1] [2] [3])) =
        .ok ((buildPatientZkPayload toyCrypto "pw" 5 [0] [1] [2] [3]).masterKeyB64, some 5) :=
  ⟨toyCryptoSpec, by decide, by decide, by decide,
    decryptPatientVault_roundtrip Nat toyCrypto toyCryptoSpec "pw" 5 [0] [1] [2] [3]
      (by decide) (by decide) (by decide)⟩

/-- C2: wrong-password rejection — opening the vault with any password other
than the one it was built with throws the AEAD authentication failure while
decrypting the master key (idealised from "with overwhelming probability"),
and never returns a value. -/
theorem decryptPatientVault_wrong_password (Doc : Type) (C : Crypto Doc) (hC : CryptoSpec C)
    (password wrongPw : String) (doc : Doc) (saltR mkR iv1 iv2 : Bytes)
    (hne : wrongPw ≠ password) (hsaltR : saltR ≠ []) (hiv1 : iv1 ≠ []) :
    decryptPatientVault C wrongPw
        (vaultOf (buildPatientZkPayload C password doc saltR mkR iv1 iv2)) =
      .error .authFailure := by
  have hsalts : C.toBase64 saltR ≠ "" := hC.toBase64_ne_empty _ hsaltR
  have hiv1s : C.toBase64 iv1 ≠ "" := hC.toBase64_ne_empty _ hiv1
  have hct1 : C.toBase64 (C.gcmEncrypt (deriveAesKey C password (C.toBase64 saltR)) iv1 mkR)
      ≠ "" := hC.toBase64_ne_empty _ (hC.gcm_ct_ne_empty _ _ _)
  have hkk : deriveAesKey C password (C.toBase64 saltR) ≠
      deriveAesKey C wrongPw (C.toBase64 saltR) := by
    intro h
    unfold deriveAesKey at h
    exact hne ((hC.utf8_inj (hC.argon_inj _ _ h)).symm)
  have hwrong := hC.gcm_wrong_key (deriveAesKey C password (C.toBase64 saltR))
    (deriveAesKey C wrongPw (C.toBase64 saltR)) iv1 iv1 mkR hkk
  simp only [buildPatientZkPayload, encryptGCM, vaultOf, decryptPatientVault, decryptGCM,
    jsFalsy_some_of_ne _ hsalts, jsFalsy_some_of_ne _ (hC.env_ne_empty _),
    Bool.or_self, Bool.false_eq_true, if_false, Option.getD_some,
    parse_stringify hC, hiv1s, hct1,
    hC.fromBase64_toBase64, hwrong,
    ne_eq, not_false_iff]

/-- C2 witness. -/
theorem decryptPatientVault_wrong_password_witness :
    CryptoSpec toyCrypto ∧ ("qq" : String) ≠ "pw" ∧ ([0] : Bytes) ≠ [] ∧ ([2] : Bytes) ≠ [] ∧
      decryptPatientVault toyCrypto "qq"
          (vaultOf (buildPatientZkPayload toyCrypto "pw" 5 [0] [1] [2] [3])) =
        .error .authFailure :=
  ⟨toyCryptoSpec, by decide, by decide, by decide,
    decryptPatientVault_wrong_password Nat toyCrypto toyCryptoSpec "pw" "qq" 5 [0] [1] [2] [3]
      (by decide) (by decide) (by decide)⟩

/-- C3 counterexample: with salt and master-key envelope intact and the
correct password, a corrupted `encryptedProfile` that still parses as an
envelope but fails AEAD authentication makes `decryptPatientVault` throw
(the `try`/`catch` of the source covers only the final `JSON.parse`), instead
of returning the master key with a `null` profile as the claim states for
every corruption. -/
theorem decryptPatientVault_profile_tamper_throws :
    decryptPatientVault toyCrypto "pw"
        ⟨some (buildPatientZkPayload toyCrypto "pw" 5 [0] [1] [2] [3]).salt,
         some (buildPatientZkPayload toyCrypto "pw" 5 [0] [1] [2] [3]).encryptedMasterKey,
         some (toyCrypto.stringifyEnv ⟨toyCrypto.toBase64 [3], toyCrypto.toBase64 [9, 9]⟩)⟩ =
      .error .authFailure := by decide

/-- C3 amended: profile-only corruption is tolerated for every corruption
that makes the profile envelope fail to parse (absent, empty, invalid JSON,
or missing a truthy `iv`/`data` field): `decryptPatientVault` with the
correct password then returns the correct `masterKeyB64` with `profile =
null`.  (A corruption that leaves a well-formed envelope whose ciphertext
fails authentication throws instead — see the counterexample.) -/
theorem decryptPatientVault_profile_parse_corruption_tolerated (Doc : Type) (C : Crypto Doc)
    (hC : CryptoSpec C) (password : String) (doc : Doc) (saltR mkR iv1 iv2 : Bytes)
    (hsaltR : saltR ≠ []) (hiv1 : iv1 ≠ []) (corrupt : Option String)
    (hcorrupt : parseEncryptedJson C corrupt = none) :
    decryptPatientVault C password
        ⟨some (buildPatientZkPayload C password doc saltR mkR iv1 iv2).salt,
         some (buildPatientZkPayload C password doc saltR mkR iv1 iv2).encryptedMasterKey,
         corrupt⟩ =
      .ok ((buildPatientZkPayload C password doc saltR mkR iv1 iv2).masterKeyB64, none) := by
  have hsalts : C.toBase64 saltR ≠ "" := hC.toBase64_ne_empty _ hsaltR
  have hiv1s : C.toBase64 iv1 ≠ "" := hC.toBase64_ne_empty _ hiv1
  have hct1 : C.toBase64 (C.gcmEncrypt (deriveAesKey C password (C.toBase64 saltR)) iv1 mkR)
      ≠ "" := hC.toBase64_ne_empty _ (hC.gcm_ct_ne_empty _ _ _)
  by_cases hf : jsFalsy corrupt = true
  · simp only [buildPatientZkPayload, encryptGCM, decryptPatientVault, decryptGCM,
      jsFalsy_some_of_ne _ hsalts, jsFalsy_some_of_ne _ (hC.env_ne_empty _),
      Bool.or_self, Bool.false_eq_true, if_false, Option.getD_some,
      parse_stringify hC, hiv1s, hct1,
      hC.fromBase64_toBase64, hC.gcm_roundtrip, hf, if_true,
      ne_eq, not_false_iff]
  · simp only [buildPatientZkPayload, encryptGCM, decryptPatientVault, decryptGCM,
      jsFalsy_some_of_ne _ hsalts, jsFalsy_some_of_ne _ (hC.env_ne_empty _),
      Bool.or_self, Bool.false_eq_true, if_false, Option.getD_some,
      parse_stringify hC, hiv1s, hct1,
      hC.fromBase64_toBase64, hC.gcm_roundtrip, hf, hcorrupt,
      ne_eq, not_false_iff]

/-- C3 (amended) witness: corruption by an unparseable profile string. -/
theorem decryptPatientVault_profile_parse_corruption_witness :
    CryptoSpec toyCrypto ∧ ([0] : Bytes) ≠ [] ∧ ([2] : Bytes) ≠ [] ∧
      parseEncryptedJson toyCrypto (some "corrupted") = none ∧
      decryptPatientVault toyCrypto "pw"
          ⟨some (buildPatientZkPayload toyCrypto "pw" 5 [0] [1] [2] [3]).salt,
           some (buildPatientZkPayload toyCrypto "pw" 5 [0] [1] [2] [3]).encryptedMasterKey,
           some "corrupted"⟩ =
        .ok ((buildPatientZkPayload toyCrypto "pw" 5 [0] [1] [2] [3]).masterKeyB64, none) :=
  ⟨toyCryptoSpec, by decide, by decide, by decide,
    decryptPatientVault_profile_parse_corruption_tolerated Nat toyCrypto toyCryptoSpec
      "pw" 5 [0] [1] [2] [3] (by decide) (by decide) (some "corrupted") (by decide)⟩

/-- C4 counterexample: the separation half of the claim fails for identities
containing the `':'` join separator — `"b:a"` and `"a:b"` are distinct third
identities yet yield the same sorted-join material `"a:b:a:b:a"` with
`"a:b:a"`, hence literally the same conversation key. -/
theorem deriveConversationKey_separation_counterexample :
    deriveConversationKey toyCrypto "a:b:a" "b:a" =
        deriveConversationKey toyCrypto "a:b:a" "a:b" ∧
      ("b:a" : String) ≠ "a:b" := by decide

/-- C4 amended: the conversation key is order-independent for all identity
strings, and for identities free of the `':'` separator, a fixed identity's
keys with two distinct peers differ (under collision-freeness of the KDF). -/
theorem deriveConversationKey_symm_separation (Doc : Type) (C : Crypto Doc)
    (hC : CryptoSpec C) (a b c : String) :
    deriveConversationKey C a b = deriveConversationKey C b a ∧
      (':' ∉ a.data → ':' ∉ b.data → ':' ∉ c.data → b ≠ c →
        deriveConversationKey C a b ≠ deriveConversationKey C a c) := by
  constructor
  · unfold deriveConversationKey
    rw [conversationMaterial_comm]
  · intro ha hb hc hbc h
    unfold deriveConversationKey at h
    exact hbc (conversationMaterial_inj a b c ha hb hc (hC.utf8_inj (hC.argon_inj _ _ h)))

/-- C4 (amended) witness: symmetry holds even for colon-bearing identities
(the counterexample's), and the separation clause is exercised on colon-free
ones. -/
theorem deriveConversationKey_symm_separation_witness :
    CryptoSpec toyCrypto ∧
      deriveConversationKey toyCrypto "u1" "u2" = deriveConversationKey toyCrypto "u2" "u1" ∧
      deriveConversationKey toyCrypto "a:b:a" "b:a" =
        deriveConversationKey toyCrypto "b:a" "a:b:a" ∧
      deriveConversationKey toyCrypto "u1" "u2" ≠ deriveConversationKey toyCrypto "u1" "u3" :=
  ⟨toyCryptoSpec,
    (deriveConversationKey_symm_separation Nat toyCrypto toyCryptoSpec "u1" "u2" "u3").1,
    (deriveConversationKey_symm_separation Nat toyCrypto toyCryptoSpec "a:b:a" "b:a" "").1,
    (deriveConversationKey_symm_separation Nat toyCrypto toyCryptoSpec "u1" "u2" "u3").2
      (by decide) (by decide) (by decide) (by decide)⟩

/-- C6: the authentication hash normalizes the identity (trim then
lowercase), so equal normalized identities — in particular `"a@b.com"` and
`"A@B.COM "` — give equal hashes for any password, and for a fixed identity
two distinct passwords give distinct hashes (under collision-freeness of the
KDF). -/
theorem derivePasswordHash_normalized_deterministic (Doc : Type) (C : Crypto Doc)
    (hC : CryptoSpec C) (email1 email2 email pw1 pw2 : String)
    (hnorm : jsToLowerCase (jsTrim email1) = jsToLowerCase (jsTrim email2))
    (hpw : pw1 ≠ pw2) :
    derivePasswordHash C "a@b.com" pw1 = derivePasswordHash C "A@B.COM " pw1 ∧
      derivePasswordHash C email1 pw1 = derivePasswordHash C email2 pw1 ∧
      derivePasswordHash C email pw1 ≠ derivePasswordHash C email pw2 := by
  refine ⟨?_, ?_, ?_⟩
  · unfold derivePasswordHash
    rw [show jsToLowerCase (jsTrim "a@b.com") = jsToLowerCase (jsTrim "A@B.COM ") by decide]
  · unfold derivePasswordHash
    rw [hnorm]
  · intro h
    unfold derivePasswordHash at h
    exact hpw (hC.utf8_inj (hC.argon_inj _ _ (hC.toBase64_inj h)))

/-- C6 witness. -/
theorem derivePasswordHash_normalized_deterministic_witness :
    CryptoSpec toyCrypto ∧
      jsToLowerCase (jsTrim "a@b.com") = jsToLowerCase (jsTrim "A@B.COM ") ∧
      ("pw1" : String) ≠ "pw2" ∧
      (derivePasswordHash toyCrypto "a@b.com" "pw1" =
          derivePasswordHash toyCrypto "A@B.COM " "pw1" ∧
        derivePasswordHash toyCrypto "a@b.com" "pw1" =
          derivePasswordHash toyCrypto "A@B.COM " "pw1" ∧
        derivePasswordHash toyCrypto "e@x.fr" "pw1" ≠
          derivePasswordHash toyCrypto "e@x.fr" "pw2") :=
  ⟨toyCryptoSpec, by decide, by decide,
    derivePasswordHash_normalized_deterministic Nat toyCrypto toyCryptoSpec
      "a@b.com" "A@B.COM " "e@x.fr" "pw1" "pw2" (by decide) (by decide)⟩

/-- C9 counterexample: on an AEAD decryption failure, the thread-list
function `decryptPreview` does not return a neutral "message unreadable"
placeholder — it falls back to the message's raw `encryptedContent`. -/
theorem decryptPreview_failure_counterexample :
    decryptPreview toyCrypto (some "u")
        ⟨some "p2", some ⟨toyCrypto.toBase64 [0], toyCrypto.toBase64 [7]⟩⟩ =
        toyCrypto.toBase64 [7] ∧
      toyCrypto.gcmDecrypt (deriveConversationKey toyCrypto "u" "p2")
        (toyCrypto.fromBase64 (toyCrypto.toBase64 [0]))
        (toyCrypto.fromBase64 (toyCrypto.toBase64 [7])) = none ∧
      toyCrypto.toBase64 [7] ≠ "Message illisible (erreur déchiffrement)" ∧
      toyCrypto.toBase64 [7] ≠ "" := by decide

/-- C9 amended: neither UI decryption function throws on a per-message AEAD
failure; `decryptMessage` returns the fixed placeholder
`'Message illisible (erreur déchiffrement)'`, while `decryptPreview` falls
back to the raw `encryptedContent` (or `''` when absent) rather than a
placeholder. -/
theorem chat_decrypt_failure_contained (Doc : Type) (C : Crypto Doc)
    (key : Bytes) (msg : ChatMessage)
    (hmsg : decryptGCM C key msg.iv msg.encryptedContent = none)
    (userId peerId : String) (huser : userId ≠ "") (hpeer : peerId ≠ "")
    (lm : ThreadMessage)
    (hlm : C.gcmDecrypt (deriveConversationKey C userId peerId)
      (C.fromBase64 lm.iv) (C.fromBase64 lm.encryptedContent) = none) :
    decryptMessage C (some key) msg = "Message illisible (erreur déchiffrement)" ∧
      decryptPreview C (some userId) ⟨some peerId, some lm⟩ = jsOr lm.encryptedContent "" := by
  constructor
  · simp only [decryptMessage, hmsg]
  · unfold decryptPreview
    simp only [jsFalsy_some_of_ne _ huser, jsFalsy_some_of_ne _ hpeer,
      Bool.or_self, Bool.false_eq_true, if_false, Option.getD_some, hlm]

/-- C9 (amended) witness. -/
theorem chat_decrypt_failure_contained_witness :
    decryptGCM toyCrypto [5] (toyCrypto.toBase64 [9]) (toyCrypto.toBase64 [8]) = none ∧
      ("u" : String) ≠ "" ∧ ("p2" : String) ≠ "" ∧
      toyCrypto.gcmDecrypt (deriveConversationKey toyCrypto "u" "p2")
        (toyCrypto.fromBase64 (toyCrypto.toBase64 [0]))
        (toyCrypto.fromBase64 (toyCrypto.toBase64 [7])) = none ∧
      (decryptMessage toyCrypto (some [5])
          ⟨toyCrypto.toBase64 [8], toyCrypto.toBase64 [9], none⟩ =
          "Message illisible (erreur déchiffrement)" ∧
        decryptPreview toyCrypto (some "u")
          ⟨some "p2", some ⟨toyCrypto.toBase64 [0], toyCrypto.toBase64 [7]⟩⟩ =
          jsOr (toyCrypto.toBase64 [7]) "") :=
  ⟨by decide, by decide, by decide, by decide,
    chat_decrypt_failure_contained Nat toyCrypto [5]
      ⟨toyCrypto.toBase64 [8], toyCrypto.toBase64 [9], none⟩ (by decide)
      "u" "p2" (by decide) (by decide)
      ⟨toyCrypto.toBase64 [0], toyCrypto.toBase64 [7]⟩ (by decide)⟩
